import Mathlib

/-!
Verification of `ndexnestloader/ndexloadnestsubnetworks.py`.

Shallow embedding of the pure data-transformation logic of the loader:

* the IAS score table loader `_get_ias_score_map` (two-level dict of rows,
  float-column conversion, last-row-wins overwrite),
* the subnetwork builder `_create_network_from_gene_list` together with
  `_get_score_map_edge_attributes` and the `CX2Network` node/edge operations
  it uses (`add_node` auto-assigns consecutive integer ids),
* the per-node control flow of `run` (name / `NEST:` prefix / `--maxsize`
  skip logic) together with `get_name_and_genes_from_node`,
* the create-vs-update decision of `_save_update_network` with its dry-run
  gate, and
* the temp-directory lifecycle (`tempfile.mkdtemp` / `try ... finally
  shutil.rmtree`) of `_get_ias_score_map`, with the download and csv parse
  abstracted as an effectful body.

Python dicts keyed by strings are embedded either as association lists
(`List (String × _)` with first-match lookup `dictGet`; keys are kept
unique exactly where the source keeps them unique) or, for the score map
that is only ever queried pointwise, as functions `String → Option _`.
-/

namespace NdexNestLoader

/-- A value stored in a score-table row: either the raw string read from the
TSV file, or the result of Python `float()` applied to that string (the
numeric parse itself is external I/O on IEEE values, so it is kept
uninterpreted: `Cell.flt s` records that `float(s)` was stored). -/
inductive Cell where
  | str (s : String)
  | flt (s : String)
deriving DecidableEq, Repr

/-- A raw row produced by `csv.DictReader`: column name to string value,
in column order, keys unique. -/
abbrev Row := List (String × String)

/-- A row after the float-conversion loop of `_get_ias_score_map`. -/
abbrev ConvRow := List (String × Cell)

/-- First-match lookup in an association list; embeds Python `d[k]` /
`k in d` for dicts whose keys are unique. -/
def dictGet {α : Type} : List (String × α) → String → Option α
  | [], _ => none
  | kv :: rest, k => if kv.1 = k then some kv.2 else dictGet rest k

/-- `PROTEIN_ONE` constant of the module. -/
def PROTEIN_ONE : String := "Protein 1"

/-- `PROTEIN_TWO` constant of the module. -/
def PROTEIN_TWO : String := "Protein 2"

/-- `FLOAT_ATTRIBUTES` constant of the module. -/
def FLOAT_ATTRIBUTES : List String :=
  ["Integrated score",
   "evidence: Protein co-expression",
   "evidence: Co-dependence",
   "evidence: Sequence similarity",
   "evidence: Physical",
   "evidence: mRNA co-expression"]

/-- The float-conversion loop of `_get_ias_score_map`
(`for key in row: if key in float_attrs: row[key] = float(row[key])`):
every value whose column is in `FLOAT_ATTRIBUTES` is replaced by its
`float()` conversion, all others stay strings; keys and order unchanged. -/
def convert_row (row : Row) : ConvRow :=
  row.map (fun kv => (kv.1, if kv.1 ∈ FLOAT_ATTRIBUTES then Cell.flt kv.2 else Cell.str kv.2))

/-- Inner level of the score map: `Protein 2` value to stored row. -/
abbrev InnerMap := String → Option ConvRow

/-- The two-level score map built by `_get_ias_score_map`:
`score_map[protein 1][protein 2] = row`. -/
abbrev ScoreMap := String → Option InnerMap

/-- Key used to index a row (`row[PROTEIN_ONE]` / `row[PROTEIN_TWO]`); in the
source a missing column raises `KeyError`, the `getD ""` default is never
exercised on well-formed reader rows (every `DictReader` row carries all
header columns).  Note `PROTEIN_ONE`/`PROTEIN_TWO` are not in
`FLOAT_ATTRIBUTES`, so reading the key before or after the conversion loop
(the source does both) yields the same string. -/
def rowKey (row : Row) (k : String) : String := (dictGet row k).getD ""

/-- One iteration of the row loop of `_get_ias_score_map`:
`if row[P1] not in score_map: score_map[row[P1]] = {}`, convert the float
columns, then `score_map[row[P1]][row[P2]] = row`. -/
def load_row (score_map : ScoreMap) (row : Row) : ScoreMap :=
  let p1 := rowKey row PROTEIN_ONE
  let inner : InnerMap :=
    match score_map p1 with
    | some m => m
    | none => fun _ => none
  let conv := convert_row row
  let p2 := rowKey row PROTEIN_TWO
  fun a => if a = p1 then some (fun b => if b = p2 then some conv else inner b) else score_map a

/-- `_get_ias_score_map`, on the list of rows produced by the csv reader. -/
def get_ias_score_map (rows : List Row) : ScoreMap :=
  rows.foldl load_row (fun _ => none)

/-- `_get_score_map_edge_attributes`: copy of the row minus the
`Protein 1` and `Protein 2` keys (the `for key in ias_attributes` loop). -/
def get_score_map_edge_attributes : ConvRow → ConvRow
  | [] => []
  | kv :: rest =>
    if kv.1 = PROTEIN_ONE ∨ kv.1 = PROTEIN_TWO then get_score_map_edge_attributes rest
    else kv :: get_score_map_edge_attributes rest

/-- The slice of `ndex2.cx2.CX2Network` exercised by the loader: nodes and
edges with their attribute dicts; `add_node` assigns consecutive integer
ids. -/
structure CX2Network where
  nodes : List (Nat × ConvRow)
  edges : List (Nat × Nat × ConvRow)
  nextNodeId : Nat
deriving DecidableEq, Repr

/-- `CX2Network()` constructor: empty network. -/
def CX2Network.emptyNet : CX2Network := ⟨[], [], 0⟩

/-- `net.add_node(attributes=...)`: appends a node with a fresh id and
returns that id. -/
def CX2Network.add_node (net : CX2Network) (attributes : ConvRow) : CX2Network × Nat :=
  ({ net with nodes := net.nodes ++ [(net.nextNodeId, attributes)],
              nextNodeId := net.nextNodeId + 1 },
   net.nextNodeId)

/-- `net.add_edge(source=..., target=..., attributes=...)`. -/
def CX2Network.add_edge (net : CX2Network) (source target : Nat) (attributes : ConvRow) :
    CX2Network :=
  { net with edges := net.edges ++ [(source, target, attributes)] }

/-- Loop state of `_create_network_from_gene_list`: the `node_map`
(gene symbol to node id, keys unique) and the network under construction. -/
structure BuildState where
  node_map : List (String × Nat)
  net : CX2Network
deriving DecidableEq, Repr

/-- `if protein not in node_map: node_map[protein] = net.add_node(
attributes={'name': protein})`, returning the state and
`node_map[protein]`. -/
def ensure_node (st : BuildState) (gene : String) : BuildState × Nat :=
  match dictGet st.node_map gene with
  | some i => (st, i)
  | none =>
    let r := st.net.add_node [("name", Cell.str gene)]
    ({ node_map := (gene, r.2) :: st.node_map, net := r.1 }, r.2)

/-- Body of the inner `for protein_two in gene_list` loop of
`_create_network_from_gene_list`, for a fixed `protein_one` whose inner
score dict is `inner` and whose node id is `id1`. -/
def inner_step (inner : InnerMap) (id1 : Nat) (st : BuildState) (protein_two : String) :
    BuildState :=
  match inner protein_two with
  | none => st
  | some row =>
    let r := ensure_node st protein_two
    { r.1 with net := r.1.net.add_edge id1 r.2 (get_score_map_edge_attributes row) }

/-- Body of the outer `for protein_one in gene_list` loop of
`_create_network_from_gene_list`. -/
def outer_step (score_map : ScoreMap) (gene_list : List String) (st : BuildState)
    (protein_one : String) : BuildState :=
  match score_map protein_one with
  | none => st
  | some inner =>
    let r := ensure_node st protein_one
    gene_list.foldl (inner_step inner r.2) r.1

/-- Full loop of `_create_network_from_gene_list`, keeping the final
`node_map` alongside the network. -/
def build_network_state (gene_list : List String) (score_map : ScoreMap) : BuildState :=
  gene_list.foldl (outer_step score_map gene_list) ⟨[], CX2Network.emptyNet⟩

/-- `_create_network_from_gene_list(gene_list, score_map)`. -/
def create_network_from_gene_list (gene_list : List String) (score_map : ScoreMap) :
    CX2Network :=
  (build_network_state gene_list score_map).net

/-- Observation: number of nodes of `net` whose `name` attribute is the
gene symbol `g`. -/
def node_count (net : CX2Network) (g : String) : Nat :=
  net.nodes.countP (fun n => decide (dictGet n.2 "name" = some (Cell.str g)))

/-- Observation: the `name` attribute of the node of `net` with id `i`. -/
def CX2Network.node_name (net : CX2Network) (i : Nat) : Option Cell :=
  (net.nodes.find? (fun n => n.1 == i)).bind (fun n => dictGet n.2 "name")

/-- Observation: whether an edge runs from the node named `a` to the node
named `b` in `net`. -/
def edge_pred (net : CX2Network) (a b : String) : Nat × Nat × ConvRow → Bool :=
  fun e =>
    decide (net.node_name e.1 = some (Cell.str a)) &&
    decide (net.node_name e.2.1 = some (Cell.str b))

/-- Observation: number of edges of `net` whose source node is named `a`
and whose target node is named `b`. -/
def edge_count_between (net : CX2Network) (a b : String) : Nat :=
  net.edges.countP (edge_pred net a b)

/-- Node id assigned to gene `g` in a node map (only ever used at keys
known to be present, so the default is irrelevant). -/
def idOf (f : List (String × Nat)) (g : String) : Nat := (dictGet f g).getD 0

/-- `f` answers every lookup `m` answers: the node map only ever grows
during the build, so any later node map extends any earlier one. -/
def MapExtends (f m : List (String × Nat)) : Prop :=
  ∀ g i, dictGet m g = some i → dictGet f g = some i

/-- Specification of the edges the inner loop of
`_create_network_from_gene_list` appends while scanning `l` for a fixed
`protein_one` with inner score dict `inner` and node id `id1`, with node
ids read off the final node map `f`. -/
def edges_spec_inner (inner : InnerMap) (f : List (String × Nat)) (id1 : Nat) :
    List String → List (Nat × Nat × ConvRow)
  | [] => []
  | p2 :: rest =>
    (match inner p2 with
     | none => []
     | some row => [(id1, idOf f p2, get_score_map_edge_attributes row)])
    ++ edges_spec_inner inner f id1 rest

/-- Specification of all edges appended by the outer loop of
`_create_network_from_gene_list` while scanning `l`, with node ids read
off the final node map `f`. -/
def edges_spec (sm : ScoreMap) (gene_list : List String) (f : List (String × Nat)) :
    List String → List (Nat × Nat × ConvRow)
  | [] => []
  | p1 :: rest =>
    (match sm p1 with
     | none => []
     | some inner => edges_spec_inner inner f (idOf f p1) gene_list)
    ++ edges_spec sm gene_list f rest

/-- Invariant of the build loop: the network's nodes are exactly the
node-map entries in insertion order with a single `name` attribute, the
node map binds each gene and each node id at most once, all ids are below
the id counter, and every mapped gene really comes from the score table
(as a first-level key or as a second-level key under some first-level
entry). -/
structure GoodState (sm : ScoreMap) (st : BuildState) : Prop where
  nodes_eq : st.net.nodes
      = st.node_map.reverse.map (fun gi => (gi.2, [("name", Cell.str gi.1)]))
  keys_nodup : (st.node_map.map Prod.fst).Nodup
  ids_nodup : (st.node_map.map Prod.snd).Nodup
  ids_bound : ∀ gi ∈ st.node_map, gi.2 < st.net.nextNodeId
  origin : ∀ gi ∈ st.node_map,
    (∃ inner, sm gi.1 = some inner)
    ∨ ∃ p1 inner row, sm p1 = some inner ∧ inner gi.1 = some row

/-- Python `str.split(sep)` with a one-character separator `sep`, on the
character list of the string, carrying the characters of the current field
in reverse in `acc`: splits at every occurrence of `sep`, keeping empty
fields (`''.split(' ') == ['']`, `'a  b'.split(' ') == ['a', '', 'b']`). -/
def pysplit (sep : Char) (acc : List Char) : List Char → List String
  | [] => [String.mk acc.reverse]
  | c :: rest =>
    if c = sep then String.mk acc.reverse :: pysplit sep [] rest
    else pysplit sep (c :: acc) rest

/-- `get_name_and_genes_from_node(node)`: returns `(None, None)` when the
node has no `'v'` dict or no `'Genes'` attribute; otherwise the
`'Annotation'` value (or `None`) and `Genes.split(' ')`.  The `'v'` dict is
embedded as `Option` of an association list of the string-valued attributes
the function reads. -/
def get_name_and_genes_from_node (node_v : Option (List (String × String))) :
    Option String × Option (List String) :=
  match node_v with
  | none => (none, none)
  | some attrs =>
    match dictGet attrs "Genes" with
    | none => (none, none)
    | some genes => (dictGet attrs "Annotation", some (pysplit ' ' [] genes.data))

/-- Python `str.startswith(pre)`: the characters of `pre` are a prefix of
the characters of `s`. -/
def pystartswith (s pre : String) : Bool :=
  pre.data.isPrefixOf s.data

/-- What `run` decides to do with one hierarchy node (lines 383-400):
skip it for lack of a usable name, skip it for exceeding `--maxsize`, or
build (and subsequently attribute, style and publish) a subnetwork under
the given name. -/
inductive NodeAction where
  | skippedName
  | skippedSize
  | build (name : String) (gene_list : List String)
deriving DecidableEq, Repr

/-- Per-node control flow of `run`:
`if name is None: continue`, `if name.startswith('NEST:'): continue`
(logged as "assembly lacks a name"), `if len(gene_list) > self._maxsize:
continue`, else build the subnetwork from `gene_list`; the `name` is then
passed unchanged to `_update_network_attributes`, which assigns
`net_attrs['name'] = name`.  When the name is present the gene list is
present too (both come from the same `'v'` dict), so the `getD []` default
of the embedding is never exercised in that case. -/
def run_node_action (node_v : Option (List (String × String))) (maxsize : Int) : NodeAction :=
  match get_name_and_genes_from_node node_v with
  | (none, _) => .skippedName
  | (some name, genes) =>
    if pystartswith name "NEST:" then .skippedName
    else
      let gene_list := genes.getD []
      if (gene_list.length : Int) > maxsize then .skippedSize
      else .build name gene_list

/-- A call made on the NDEx client by `_save_update_network`. -/
inductive NdexOp where
  | update_cx2_network (uuid : String)
  | save_new_cx2_network (visibility : String)
deriving DecidableEq, Repr

/-- Which branch of `_save_update_network` runs: the update branch
(`net_attrs['name'] in network_dict`, with the mapped UUID) or the save
branch. -/
inductive SaveBranch where
  | update (uuid : String)
  | create
deriving DecidableEq, Repr

/-- `_save_update_network(net_attrs, network_dict, sub_network)`: first the
branch is chosen by `net_attrs['name'] in network_dict`; then, inside
either branch, `self._dryrun` gates the client call (`update_cx2_network`
with `network_dict[name]`, or `save_new_cx2_network` with the configured
visibility).  Returns the branch taken and the client call made (`none`
under dry run). -/
def save_update_network (dryrun : Bool) (name : String)
    (network_dict : List (String × String)) (visibility : String) :
    SaveBranch × Option NdexOp :=
  match dictGet network_dict name with
  | some uuid =>
    (.update uuid, if dryrun then none else some (.update_cx2_network uuid))
  | none =>
    (.create, if dryrun then none else some (.save_new_cx2_network visibility))

/-- Filesystem events performed by `_get_ias_score_map` around the
download. -/
inductive FsEvent where
  | mkdtemp (d : String)
  | rmtree (d : String)
deriving DecidableEq, Repr

/-- Temp-directory lifecycle of `_get_ias_score_map`: if `self._tempdir` is
`None` a fresh directory is created with `tempfile.mkdtemp()` (its path is
the `freshdir` parameter), otherwise the configured directory is used;
`body` abstracts the `try` block (`_download_ias_score` plus the csv parse,
external I/O returning the reader rows or raising) together with the
filesystem events it performs; the `finally` block removes the directory
with `shutil.rmtree` exactly when `self._tempdir` is `None`, on normal
return and on exception alike. -/
def get_ias_score_map_io (tempdir : Option String) (freshdir : String)
    (body : String → Except String (List Row) × List FsEvent) :
    Except String ScoreMap × List FsEvent :=
  match tempdir with
  | none =>
    let r := body freshdir
    (r.1.map get_ias_score_map, FsEvent.mkdtemp freshdir :: (r.2 ++ [FsEvent.rmtree freshdir]))
  | some d =>
    let r := body d
    (r.1.map get_ias_score_map, r.2)

section ExampleScenario

/-- Score-table row `A1BG → ABCB4` of the end-to-end example. -/
def exRow1 : Row :=
  [("Protein 1", "A1BG"), ("Protein 2", "ABCB4"), ("Integrated score", "0.208")]

/-- Score-table row `A1BG → A1CF` of the end-to-end example. -/
def exRow2 : Row :=
  [("Protein 1", "A1BG"), ("Protein 2", "A1CF"), ("Integrated score", "0.804")]

/-- The example score table: only first-level key is `A1BG`, with entries
for `ABCB4` and `A1CF`. -/
def exScoreMap : ScoreMap := get_ias_score_map [exRow1, exRow2]

/-- The example gene list. -/
def exGeneList : List String := ["A1BG", "A1CF", "X"]

/-- The subnetwork the loader builds for the example. -/
def exNet : CX2Network := create_network_from_gene_list exGeneList exScoreMap

/-- A hierarchy-node `'v'` dict whose annotation carries the legacy
`NEST:` prefix. -/
def nestNameV : Option (List (String × String)) :=
  some [("Genes", "AKT1 CTNNB1"), ("Annotation", "NEST:169")]

/-- A hierarchy-node `'v'` dict with an ordinary annotation. -/
def plainNameV : Option (List (String × String)) :=
  some [("Genes", "AKT1 CTNNB1"), ("Annotation", "AKT1 activation")]

/-- A small score table with entries `A→B` and `A→A` (and nothing else),
used to exercise the node/edge multiplicity results on concrete inputs. -/
def wScoreMap : ScoreMap :=
  fun a =>
    if a = "A"
    then some (fun b => if b = "B" ∨ b = "A" then some [("s", Cell.str "1")] else none)
    else none

end ExampleScenario

end NdexNestLoader

namespace NdexNestLoader

/-- C1 (counterexample): on the gene list `["A1BG","A1CF","X"]` and the
score table with first-level entries `A1BG→ABCB4` and `A1BG→A1CF` only,
the subnetwork built by `_create_network_from_gene_list` has NO node named
`ABCB4` and only ONE edge, contradicting the claimed three nodes and two
edges: nodes and edges are only ever created for genes that occur in the
gene list, and `ABCB4` does not. -/
theorem claim_c1_counterexample :
    node_count exNet "ABCB4" = 0 ∧ exNet.edges.length = 1 := by decide

/-- C1 (amended): for the gene list `["A1BG","A1CF","X"]` and that score
table, the subnetwork contains exactly the nodes `A1BG` and `A1CF` (no
node for `ABCB4`, which is absent from the gene list, and none for `X`)
and exactly one edge, from `A1BG` to `A1CF`, carrying the converted score
columns. -/
theorem claim_c1_amended :
    exNet.nodes = [(0, [("name", Cell.str "A1BG")]), (1, [("name", Cell.str "A1CF")])]
    ∧ exNet.edges = [(0, 1, [("Integrated score", Cell.flt "0.804")])] := by decide

/-- C3 (counterexample): a hierarchy node annotated `NEST:169` is simply
dropped by `run` (no subnetwork is built or published under any rewritten
name), and a node annotated `AKT1 activation` is processed under that very
name with no display prefix prepended — refuting both halves of the
claimed rewrite/synthesize naming policy. -/
theorem claim_c3_counterexample :
    run_node_action nestNameV 100 = NodeAction.skippedName
    ∧ run_node_action plainNameV 100
        = NodeAction.build "AKT1 activation" ["AKT1", "CTNNB1"] := by decide

/-- C3 (amended): a hierarchy-node name starting with the legacy token
`NEST:` causes the node to be skipped outright (treated as lacking a name;
nothing is built or published), and a name without that token is used
unchanged — no canonical display prefix is prepended. -/
theorem claim_c3_amended (node_v : Option (List (String × String))) (name : String)
    (genes : Option (List String)) (maxsize : Int)
    (h : get_name_and_genes_from_node node_v = (some name, genes)) :
    (pystartswith name "NEST:" = true → run_node_action node_v maxsize = .skippedName)
    ∧ (pystartswith name "NEST:" = false → ∀ gl, genes = some gl →
        (gl.length : Int) ≤ maxsize → run_node_action node_v maxsize = .build name gl) := by
  unfold run_node_action
  rw [h]
  constructor
  · intro hp
    simp [hp]
  · intro hp gl hgl hle
    subst hgl
    simp [hp, not_lt.mpr hle]

/-- Witness for C3 (amended) at the two concrete nodes. -/
theorem claim_c3_amended_witness :
    run_node_action nestNameV 50 = NodeAction.skippedName
    ∧ run_node_action plainNameV 50
        = NodeAction.build "AKT1 activation" ["AKT1", "CTNNB1"] :=
  ⟨(claim_c3_amended nestNameV "NEST:169" (some ["AKT1", "CTNNB1"]) 50 (by decide)).1
      (by decide),
   (claim_c3_amended plainNameV "AKT1 activation" (some ["AKT1", "CTNNB1"]) 50 (by decide)).2
      (by decide) ["AKT1", "CTNNB1"] rfl (by decide)⟩

/-- C5 (confirmed): `run` skips a node whose gene count strictly exceeds
`--maxsize` (no subnetwork is built, nothing is uploaded), and does NOT
skip a node whose gene count equals `--maxsize` exactly (for a node that
passes the name checks, the pipeline proceeds to build). -/
theorem claim_c5_maxsize_cutoff (node_v : Option (List (String × String))) (name : String)
    (gl : List String) (maxsize : Int)
    (h : get_name_and_genes_from_node node_v = (some name, some gl))
    (hp : pystartswith name "NEST:" = false) :
    ((gl.length : Int) > maxsize → run_node_action node_v maxsize = .skippedSize)
    ∧ ((gl.length : Int) = maxsize → run_node_action node_v maxsize = .build name gl) := by
  unfold run_node_action
  rw [h]
  constructor
  · intro hgt
    simp [hp, hgt]
  · intro heq
    simp [hp, heq]

/-- Witness for C5 at a concrete two-gene node: skipped with cutoff 1,
built with cutoff 2. -/
theorem claim_c5_maxsize_cutoff_witness :
    run_node_action plainNameV 1 = NodeAction.skippedSize
    ∧ run_node_action plainNameV 2
        = NodeAction.build "AKT1 activation" ["AKT1", "CTNNB1"] :=
  ⟨(claim_c5_maxsize_cutoff plainNameV "AKT1 activation" ["AKT1", "CTNNB1"] 1
      (by decide) (by decide)).1 (by decide),
   (claim_c5_maxsize_cutoff plainNameV "AKT1 activation" ["AKT1", "CTNNB1"] 2
      (by decide) (by decide)).2 (by decide)⟩

/-- C4 (confirmed): with the dry-run flag off, `_save_update_network`
invokes `update_cx2_network` with exactly the UUID the existing-network
index maps the name to when the name is a key of the index (and never the
save operation), and invokes `save_new_cx2_network` with the configured
visibility when it is not (and never the update operation). -/
theorem claim_c4_save_update_branches (name : String)
    (network_dict : List (String × String)) (visibility : String) :
    (∀ uuid, dictGet network_dict name = some uuid →
        save_update_network false name network_dict visibility
          = (.update uuid, some (.update_cx2_network uuid)))
    ∧ (dictGet network_dict name = none →
        save_update_network false name network_dict visibility
          = (.create, some (.save_new_cx2_network visibility))) := by
  constructor
  · intro uuid hu
    simp [save_update_network, hu]
  · intro hn
    simp [save_update_network, hn]

/-- Witness for C4 on the index `{x ↦ 12345}`: updating `x`, creating
`y`. -/
theorem claim_c4_save_update_branches_witness :
    save_update_network false "x" [("x", "12345")] "PUBLIC"
      = (SaveBranch.update "12345", some (NdexOp.update_cx2_network "12345"))
    ∧ save_update_network false "y" [("x", "12345")] "PUBLIC"
      = (SaveBranch.create, some (NdexOp.save_new_cx2_network "PUBLIC")) :=
  ⟨(claim_c4_save_update_branches "x" [("x", "12345")] "PUBLIC").1 "12345" (by decide),
   (claim_c4_save_update_branches "y" [("x", "12345")] "PUBLIC").2 (by decide)⟩

/-- C6 (confirmed): with the dry-run flag set, `_save_update_network`
makes no NDEx client call at all, for every name, index and visibility;
and the branch decision (update vs create, with the matched UUID) is the
same as with the flag off — the flag only gates the side effect. -/
theorem claim_c6_dryrun (name : String) (network_dict : List (String × String))
    (visibility : String) :
    (save_update_network true name network_dict visibility).2 = none
    ∧ (save_update_network true name network_dict visibility).1
        = (save_update_network false name network_dict visibility).1 := by
  unfold save_update_network
  cases dictGet network_dict name <;> simp

lemma dictGet_convert_row (r : Row) (k : String) :
    dictGet (convert_row r) k
      = (dictGet r k).map (fun v => if k ∈ FLOAT_ATTRIBUTES then Cell.flt v else Cell.str v) := by
  induction r with
  | nil => rfl
  | cons kv rest ih =>
    by_cases hk : kv.1 = k
    · simp [convert_row, dictGet, hk]
    · simpa [convert_row, dictGet, hk] using ih

lemma load_row_bind (m : ScoreMap) (r : Row) (a b : String) :
    ((load_row m r) a).bind (fun inner => inner b)
      = if a = rowKey r PROTEIN_ONE ∧ b = rowKey r PROTEIN_TWO then some (convert_row r)
        else (m a).bind (fun inner => inner b) := by
  by_cases h1 : a = rowKey r PROTEIN_ONE
  · by_cases h2 : b = rowKey r PROTEIN_TWO
    · simp [load_row, h1, h2]
    · subst h1
      rcases hm : m (rowKey r PROTEIN_ONE) with _ | m' <;>
        simp [load_row, hm, h2]
  · simp [load_row, h1]

lemma get_ias_score_map_bind (rows : List Row) (a b : String) :
    ((get_ias_score_map rows) a).bind (fun inner => inner b)
      = ((rows.filter (fun r =>
            rowKey r PROTEIN_ONE == a && rowKey r PROTEIN_TWO == b)).getLast?).map
          convert_row := by
  induction rows using List.reverseRecOn with
  | nil => rfl
  | append_singleton rows r ih =>
    have hfold : get_ias_score_map (rows ++ [r]) = load_row (get_ias_score_map rows) r := by
      simp [get_ias_score_map, List.foldl_append]
    rw [hfold, load_row_bind, List.filter_append]
    by_cases h1 : a = rowKey r PROTEIN_ONE
    · by_cases h2 : b = rowKey r PROTEIN_TWO
      · have hpr : (rowKey r PROTEIN_ONE == a && rowKey r PROTEIN_TWO == b) = true := by
          simp [h1.symm, h2.symm]
        rw [if_pos ⟨h1, h2⟩]
        have hf : List.filter
            (fun r => rowKey r PROTEIN_ONE == a && rowKey r PROTEIN_TWO == b) [r] = [r] := by
          simp [hpr]
        rw [hf, List.getLast?_concat]
        rfl
      · have hpr : (rowKey r PROTEIN_ONE == a && rowKey r PROTEIN_TWO == b) = false := by
          have hb : ¬ rowKey r PROTEIN_TWO = b := fun hb => h2 hb.symm
          simp [hb]
        rw [if_neg (by rintro ⟨_, hb⟩; exact h2 hb)]
        have hf : List.filter
            (fun r => rowKey r PROTEIN_ONE == a && rowKey r PROTEIN_TWO == b) [r] = [] := by
          simp [hpr]
        rw [hf, List.append_nil]
        exact ih
    · have hpr : (rowKey r PROTEIN_ONE == a && rowKey r PROTEIN_TWO == b) = false := by
        have ha : ¬ rowKey r PROTEIN_ONE = a := fun ha => h1 ha.symm
        simp [ha]
      rw [if_neg (by rintro ⟨ha, _⟩; exact h1 ha)]
      have hf : List.filter
          (fun r => rowKey r PROTEIN_ONE == a && rowKey r PROTEIN_TWO == b) [r] = [] := by
        simp [hpr]
      rw [hf, List.append_nil]
      exact ih

/-- C7 (confirmed): the loaded score map indexes each parsed row by its
`Protein 1` column value and then its `Protein 2` column value; the stored
value is the full row in which exactly the `FLOAT_ATTRIBUTES` columns are
`float()`-converted and every other column is left a string; and when
several rows share the same key pair the last row wins. -/
theorem claim_c7_score_map (rows : List Row) (a b : String) :
    (((get_ias_score_map rows) a).bind (fun inner => inner b)
        = ((rows.filter (fun r =>
              rowKey r PROTEIN_ONE == a && rowKey r PROTEIN_TWO == b)).getLast?).map
            convert_row)
    ∧ (∀ r k, dictGet (convert_row r) k
        = (dictGet r k).map (fun v =>
            if k ∈ FLOAT_ATTRIBUTES then Cell.flt v else Cell.str v)) :=
  ⟨get_ias_score_map_bind rows a b, fun r k => dictGet_convert_row r k⟩

/-- C9 (confirmed): when no `--tempdir` is configured,
`_get_ias_score_map` creates a fresh temporary directory before the
download and removes exactly that directory afterwards — the removal is
the last event, performed by the `finally` block whether the body returned
rows or raised; a user-supplied directory is never removed by the loader
(the only events are the body's own). -/
theorem claim_c9_tempdir_lifecycle (freshdir : String)
    (body : String → Except String (List Row) × List FsEvent) :
    ((get_ias_score_map_io none freshdir body).2
        = FsEvent.mkdtemp freshdir :: ((body freshdir).2 ++ [FsEvent.rmtree freshdir]))
    ∧ FsEvent.rmtree freshdir ∈ (get_ias_score_map_io none freshdir body).2
    ∧ ∀ d, (get_ias_score_map_io (some d) freshdir body).2 = (body d).2 := by
  refine ⟨rfl, ?_, fun d => rfl⟩
  simp [get_ias_score_map_io]

lemma dictGet_eq_none {α : Type} {m : List (String × α)} {k : String} :
    dictGet m k = none ↔ k ∉ m.map Prod.fst := by
  induction m with
  | nil => simp [dictGet]
  | cons kv rest ih =>
    by_cases h : kv.1 = k
    · simp [dictGet, h]
    · simp only [dictGet, if_neg h, List.map_cons, List.mem_cons, ih]
      constructor
      · intro h1 h2
        rcases h2 with rfl | h2
        · exact h rfl
        · exact h1 h2
      · intro h1 h2
        exact h1 (Or.inr h2)

lemma dictGet_some_mem {α : Type} {m : List (String × α)} {k : String} {v : α}
    (h : dictGet m k = some v) : (k, v) ∈ m := by
  induction m with
  | nil => exact absurd h (by simp [dictGet])
  | cons kv rest ih =>
    simp only [dictGet] at h
    by_cases hk : kv.1 = k
    · rw [if_pos hk] at h
      subst hk
      obtain rfl := Option.some.inj h
      exact List.mem_cons_self kv rest
    · rw [if_neg hk] at h
      exact List.mem_cons_of_mem _ (ih h)

lemma ensure_node_edges (st : BuildState) (g : String) :
    (ensure_node st g).1.net.edges = st.net.edges := by
  unfold ensure_node
  cases dictGet st.node_map g <;> simp [CX2Network.add_node]

lemma ensure_node_lookup (st : BuildState) (g : String) :
    dictGet (ensure_node st g).1.node_map g = some (ensure_node st g).2 := by
  unfold ensure_node
  cases h : dictGet st.node_map g with
  | none => simp [dictGet]
  | some i => simpa using h

lemma ensure_node_mono (st : BuildState) (g : String) {x : String} {j : Nat}
    (h : dictGet st.node_map x = some j) :
    dictGet (ensure_node st g).1.node_map x = some j := by
  unfold ensure_node
  cases hg : dictGet st.node_map g with
  | some i => simpa using h
  | none =>
    have hne : g ≠ x := by
      intro hgx
      rw [hgx, h] at hg
      exact Option.noConfusion hg
    simpa [dictGet, hne] using h

lemma inner_step_node_map (inner : InnerMap) (id1 : Nat) (st : BuildState) (p2 : String)
    {x : String} {j : Nat} (h : dictGet st.node_map x = some j) :
    dictGet (inner_step inner id1 st p2).node_map x = some j := by
  unfold inner_step
  cases inner p2 with
  | none => exact h
  | some row => simpa using ensure_node_mono st p2 h

lemma foldl_node_map_mono {step : BuildState → String → BuildState}
    (hstep : ∀ st a {x : String} {j : Nat}, dictGet st.node_map x = some j →
      dictGet (step st a).node_map x = some j) :
    ∀ (l : List String) (st : BuildState) {x : String} {j : Nat},
      dictGet st.node_map x = some j → dictGet (l.foldl step st).node_map x = some j := by
  intro l
  induction l with
  | nil => exact fun st _ _ h => h
  | cons a rest ih => exact fun st _ _ h => ih _ (hstep st a h)

lemma outer_step_node_map (sm : ScoreMap) (gl : List String) (st : BuildState) (p1 : String)
    {x : String} {j : Nat} (h : dictGet st.node_map x = some j) :
    dictGet (outer_step sm gl st p1).node_map x = some j := by
  unfold outer_step
  cases sm p1 with
  | none => exact h
  | some inner =>
    exact foldl_node_map_mono (fun st a => inner_step_node_map inner _ st a) gl _
      (ensure_node_mono st p1 h)

lemma ensure_node_good {sm : ScoreMap} {st : BuildState} (hst : GoodState sm st) (g : String)
    (horig : (∃ inner, sm g = some inner)
      ∨ ∃ p1 inner row, sm p1 = some inner ∧ inner g = some row) :
    GoodState sm (ensure_node st g).1 := by
  unfold ensure_node
  cases hg : dictGet st.node_map g with
  | some i => exact hst
  | none =>
    have hkey : g ∉ st.node_map.map Prod.fst := dictGet_eq_none.mp hg
    refine ⟨?_, ?_, ?_, ?_, ?_⟩
    · show st.net.nodes ++ [(st.net.nextNodeId, [("name", Cell.str g)])]
        = ((g, st.net.nextNodeId) :: st.node_map).reverse.map
            (fun gi => (gi.2, [("name", Cell.str gi.1)]))
      simp [hst.nodes_eq]
    · show (g :: st.node_map.map Prod.fst).Nodup
      exact List.nodup_cons.mpr ⟨hkey, hst.keys_nodup⟩
    · show (st.net.nextNodeId :: st.node_map.map Prod.snd).Nodup
      refine List.nodup_cons.mpr ⟨?_, hst.ids_nodup⟩
      intro hmem
      obtain ⟨gi, hgi, hid⟩ := List.mem_map.mp hmem
      exact absurd (hid ▸ hst.ids_bound gi hgi) (lt_irrefl _)
    · intro gi hgi
      have hgi' : gi ∈ (g, st.net.nextNodeId) :: st.node_map := hgi
      show gi.2 < st.net.nextNodeId + 1
      rcases List.mem_cons.mp hgi' with rfl | hmem
      · exact Nat.lt_succ_self _
      · exact Nat.lt_succ_of_lt (hst.ids_bound gi hmem)
    · intro gi hgi
      have hgi' : gi ∈ (g, st.net.nextNodeId) :: st.node_map := hgi
      rcases List.mem_cons.mp hgi' with rfl | hmem
      · exact horig
      · exact hst.origin gi hmem

lemma inner_step_good {sm : ScoreMap} {st : BuildState} (hst : GoodState sm st)
    {p1 : String} {inner : InnerMap} (hin : sm p1 = some inner) (id1 : Nat) (p2 : String) :
    GoodState sm (inner_step inner id1 st p2) := by
  unfold inner_step
  cases hrow : inner p2 with
  | none => exact hst
  | some row =>
    have h2 := ensure_node_good hst p2 (Or.inr ⟨p1, inner, row, hin, hrow⟩)
    exact ⟨by simpa [CX2Network.add_edge] using h2.nodes_eq,
           h2.keys_nodup, h2.ids_nodup,
           by simpa [CX2Network.add_edge] using h2.ids_bound,
           h2.origin⟩

lemma foldl_goodstate {sm : ScoreMap} {step : BuildState → String → BuildState}
    (hstep : ∀ st a, GoodState sm st → GoodState sm (step st a)) :
    ∀ (l : List String) (st : BuildState), GoodState sm st → GoodState sm (l.foldl step st) := by
  intro l
  induction l with
  | nil => exact fun st h => h
  | cons a rest ih => exact fun st h => ih _ (hstep st a h)

lemma outer_step_good {sm : ScoreMap} {gl : List String} (st : BuildState) (p1 : String)
    (hst : GoodState sm st) : GoodState sm (outer_step sm gl st p1) := by
  unfold outer_step
  cases hsm : sm p1 with
  | none => exact hst
  | some inner =>
    exact foldl_goodstate (fun st a h => inner_step_good h hsm _ a) gl _
      (ensure_node_good hst p1 (Or.inl ⟨inner, hsm⟩))

lemma build_good (gene_list : List String) (sm : ScoreMap) :
    GoodState sm (build_network_state gene_list sm) := by
  refine foldl_goodstate (fun st a h => outer_step_good st a h) gene_list _ ?_
  exact ⟨rfl, List.nodup_nil, List.nodup_nil, by simp, by simp⟩

lemma inner_fold_establish (inner : InnerMap) (id1 : Nat) (l : List String) (st : BuildState)
    {p2 : String} {row : ConvRow} (hmem : p2 ∈ l) (hrow : inner p2 = some row) :
    ∃ i, dictGet (l.foldl (inner_step inner id1) st).node_map p2 = some i := by
  induction l generalizing st with
  | nil => cases hmem
  | cons a rest ih =>
    rcases List.mem_cons.mp hmem with rfl | hmem'
    · have hstep : dictGet (inner_step inner id1 st p2).node_map p2
          = some (ensure_node st p2).2 := by
        unfold inner_step
        rw [hrow]
        simpa using ensure_node_lookup st p2
      exact ⟨(ensure_node st p2).2,
        foldl_node_map_mono (fun st a => inner_step_node_map inner _ st a) rest _ hstep⟩
    · exact ih _ hmem'

lemma outer_fold_establish1 (sm : ScoreMap) (gl : List String) (l : List String)
    (st : BuildState) {p1 : String} {inner : InnerMap} (hmem : p1 ∈ l)
    (hsm : sm p1 = some inner) :
    ∃ i, dictGet (l.foldl (outer_step sm gl) st).node_map p1 = some i := by
  induction l generalizing st with
  | nil => cases hmem
  | cons a rest ih =>
    rcases List.mem_cons.mp hmem with rfl | hmem'
    · have hstep : dictGet (outer_step sm gl st p1).node_map p1
          = some (ensure_node st p1).2 := by
        unfold outer_step
        rw [hsm]
        exact foldl_node_map_mono (fun st a => inner_step_node_map inner _ st a) gl _
          (ensure_node_lookup st p1)
      exact ⟨(ensure_node st p1).2,
        foldl_node_map_mono (fun st a => outer_step_node_map sm gl st a) rest _ hstep⟩
    · exact ih _ hmem'

lemma outer_fold_establish2 (sm : ScoreMap) (gl : List String) (l : List String)
    (st : BuildState) {p1 : String} {inner : InnerMap} {p2 : String} {row : ConvRow}
    (hp1 : p1 ∈ l) (hsm : sm p1 = some inner) (hp2 : p2 ∈ gl) (hrow : inner p2 = some row) :
    ∃ i, dictGet (l.foldl (outer_step sm gl) st).node_map p2 = some i := by
  induction l generalizing st with
  | nil => cases hp1
  | cons a rest ih =>
    rcases List.mem_cons.mp hp1 with rfl | hmem'
    · have hstep : ∃ i, dictGet (outer_step sm gl st p1).node_map p2 = some i := by
        unfold outer_step
        rw [hsm]
        exact inner_fold_establish inner _ gl _ hp2 hrow
      obtain ⟨i, hi⟩ := hstep
      exact ⟨i, foldl_node_map_mono (fun st a => outer_step_node_map sm gl st a) rest _ hi⟩
    · exact ih _ hmem'

lemma inner_fold_edges (inner : InnerMap) (id1 : Nat) (l : List String) (st : BuildState)
    (f : List (String × Nat))
    (hext : MapExtends f (l.foldl (inner_step inner id1) st).node_map) :
    (l.foldl (inner_step inner id1) st).net.edges
      = st.net.edges ++ edges_spec_inner inner f id1 l := by
  induction l generalizing st with
  | nil => simp [edges_spec_inner]
  | cons p2 rest ih =>
    cases hrow : inner p2 with
    | none =>
      have hid : inner_step inner id1 st p2 = st := by
        unfold inner_step
        rw [hrow]
      rw [List.foldl_cons, hid,
          show edges_spec_inner inner f id1 (p2 :: rest) = edges_spec_inner inner f id1 rest
            from by simp [edges_spec_inner, hrow]]
      exact ih st (by rw [List.foldl_cons, hid] at hext; exact hext)
    | some row =>
      have hextA : MapExtends f
          (rest.foldl (inner_step inner id1) (inner_step inner id1 st p2)).node_map := by
        rw [List.foldl_cons] at hext
        exact hext
      have hih := ih (inner_step inner id1 st p2) hextA
      have hedgesA : (inner_step inner id1 st p2).net.edges
          = st.net.edges ++ [(id1, (ensure_node st p2).2, get_score_map_edge_attributes row)] := by
        unfold inner_step
        rw [hrow]
        simp [CX2Network.add_edge, ensure_node_edges]
      have hlook : dictGet (inner_step inner id1 st p2).node_map p2
          = some (ensure_node st p2).2 := by
        unfold inner_step
        rw [hrow]
        simpa using ensure_node_lookup st p2
      have hfinal := foldl_node_map_mono (fun st a => inner_step_node_map inner id1 st a)
        rest _ hlook
      have hidOf : idOf f p2 = (ensure_node st p2).2 := by
        unfold idOf
        rw [hextA _ _ hfinal]
        rfl
      rw [List.foldl_cons, hih, hedgesA,
          show edges_spec_inner inner f id1 (p2 :: rest)
              = (id1, idOf f p2, get_score_map_edge_attributes row)
                :: edges_spec_inner inner f id1 rest
            from by simp [edges_spec_inner, hrow],
          hidOf]
      simp

lemma outer_fold_edges (sm : ScoreMap) (gl : List String) (l : List String) (st : BuildState)
    (f : List (String × Nat))
    (hext : MapExtends f (l.foldl (outer_step sm gl) st).node_map) :
    (l.foldl (outer_step sm gl) st).net.edges = st.net.edges ++ edges_spec sm gl f l := by
  induction l generalizing st with
  | nil => simp [edges_spec]
  | cons p1 rest ih =>
    cases hsm : sm p1 with
    | none =>
      have hid : outer_step sm gl st p1 = st := by
        unfold outer_step
        rw [hsm]
      rw [List.foldl_cons, hid,
          show edges_spec sm gl f (p1 :: rest) = edges_spec sm gl f rest
            from by simp [edges_spec, hsm]]
      exact ih st (by rw [List.foldl_cons, hid] at hext; exact hext)
    | some inner =>
      have hextI : MapExtends f
          (rest.foldl (outer_step sm gl) (outer_step sm gl st p1)).node_map := by
        rw [List.foldl_cons] at hext
        exact hext
      have hih := ih (outer_step sm gl st p1) hextI
      have hstI : outer_step sm gl st p1
          = gl.foldl (inner_step inner (ensure_node st p1).2) (ensure_node st p1).1 := by
        unfold outer_step
        rw [hsm]
      have hextStI : MapExtends f (outer_step sm gl st p1).node_map := fun g i h =>
        hextI g i (foldl_node_map_mono (fun st a => outer_step_node_map sm gl st a) rest _ h)
      have hinner := inner_fold_edges inner (ensure_node st p1).2 gl (ensure_node st p1).1 f
        (by rw [← hstI]; exact hextStI)
      have hlook : dictGet (outer_step sm gl st p1).node_map p1
          = some (ensure_node st p1).2 := by
        rw [hstI]
        exact foldl_node_map_mono (fun st a => inner_step_node_map inner _ st a) gl _
          (ensure_node_lookup st p1)
      have hidOf : idOf f p1 = (ensure_node st p1).2 := by
        unfold idOf
        rw [hextStI _ _ hlook]
        rfl
      rw [List.foldl_cons, hih, hstI, hinner, ensure_node_edges,
          show edges_spec sm gl f (p1 :: rest)
              = edges_spec_inner inner f (idOf f p1) gl ++ edges_spec sm gl f rest
            from by simp [edges_spec, hsm],
          hidOf]
      simp

lemma build_edges (gene_list : List String) (sm : ScoreMap) :
    (build_network_state gene_list sm).net.edges
      = edges_spec sm gene_list (build_network_state gene_list sm).node_map gene_list := by
  have h := outer_fold_edges sm gene_list gene_list ⟨[], CX2Network.emptyNet⟩
    (build_network_state gene_list sm).node_map (fun g i h => h)
  simpa [CX2Network.emptyNet] using h

lemma countP_key_eq_count (l : List (String × Nat)) (g : String) :
    l.countP (fun gi => gi.1 == g) = (l.map Prod.fst).count g := by
  induction l with
  | nil => rfl
  | cons kv rest ih =>
    by_cases h : kv.1 = g <;> simp [List.countP_cons, List.count_cons, h, ih]

lemma node_count_eq {sm : ScoreMap} {st : BuildState} (h : GoodState sm st) (g : String) :
    node_count st.net g = (st.node_map.map Prod.fst).count g := by
  unfold node_count
  rw [h.nodes_eq, List.countP_map, List.countP_reverse, ← countP_key_eq_count]
  refine List.countP_congr ?_
  intro gi _
  by_cases hg : gi.1 = g <;> simp [Function.comp, dictGet, hg]

lemma node_count_of_mapped {sm : ScoreMap} {st : BuildState} (h : GoodState sm st)
    {g : String} {i : Nat} (hmem : dictGet st.node_map g = some i) :
    node_count st.net g = 1 := by
  rw [node_count_eq h]
  exact List.count_eq_one_of_mem h.keys_nodup
    (List.mem_map.mpr ⟨(g, i), dictGet_some_mem hmem, rfl⟩)

lemma node_count_of_absent {sm : ScoreMap} {st : BuildState} (h : GoodState sm st)
    {g : String} (habs : g ∉ st.node_map.map Prod.fst) :
    node_count st.net g = 0 := by
  rw [node_count_eq h]
  exact List.count_eq_zero_of_not_mem habs

lemma node_count_le_one {sm : ScoreMap} {st : BuildState} (h : GoodState sm st) (g : String) :
    node_count st.net g ≤ 1 := by
  rw [node_count_eq h]
  exact List.nodup_iff_count_le_one.mp h.keys_nodup g

lemma nodup_keys_value_eq {α : Type} {l : List (String × α)} (hn : (l.map Prod.fst).Nodup)
    {g : String} {a b : α} (ha : (g, a) ∈ l) (hb : (g, b) ∈ l) : a = b := by
  induction l with
  | nil => cases ha
  | cons hd tl ih =>
    have h1 := (List.nodup_cons.mp hn).1
    rcases List.mem_cons.mp ha with ha' | ha' <;> rcases List.mem_cons.mp hb with hb' | hb'
    · exact (Prod.mk.injEq _ _ _ _ ▸ (ha'.trans hb'.symm) : (g = g ∧ a = b)).2
    · exact absurd (List.mem_map.mpr ⟨(g, b), hb', rfl⟩) (by rw [← ha'] at h1; exact h1)
    · exact absurd (List.mem_map.mpr ⟨(g, a), ha', rfl⟩) (by rw [← hb'] at h1; exact h1)
    · exact ih (List.nodup_cons.mp hn).2 ha' hb'

lemma find_by_id {α : Type} (l : List (Nat × α)) (hn : (l.map Prod.fst).Nodup) {i : Nat}
    {a : α} (hm : (i, a) ∈ l) : l.find? (fun n => n.1 == i) = some (i, a) := by
  induction l with
  | nil => cases hm
  | cons hd tl ih =>
    by_cases hh : hd.1 = i
    · rw [List.find?_cons_of_pos _ (by simp [hh])]
      rcases List.mem_cons.mp hm with heq | hmem
      · rw [heq]
      · exfalso
        have hmem' : i ∈ tl.map Prod.fst := List.mem_map.mpr ⟨(i, a), hmem, rfl⟩
        exact (List.nodup_cons.mp hn).1 (hh ▸ hmem')
    · rw [List.find?_cons_of_neg _ (by simp [hh])]
      rcases List.mem_cons.mp hm with heq | hmem
      · exact absurd (by rw [← heq]) hh
      · exact ih (List.nodup_cons.mp hn).2 hmem

lemma nodes_ids_nodup {sm : ScoreMap} {st : BuildState} (h : GoodState sm st) :
    (st.net.nodes.map Prod.fst).Nodup := by
  rw [h.nodes_eq]
  simp only [List.map_map]
  have hcomp : (Prod.fst ∘ fun gi : String × Nat => (gi.2, [("name", Cell.str gi.1)]))
      = Prod.snd := by
    funext gi
    rfl
  rw [hcomp, List.map_reverse]
  exact List.nodup_reverse.mpr h.ids_nodup

lemma node_name_of_node_map {sm : ScoreMap} {st : BuildState} (h : GoodState sm st)
    {g : String} {i : Nat} (hmem : (g, i) ∈ st.node_map) :
    st.net.node_name i = some (Cell.str g) := by
  have hnode : (i, [("name", Cell.str g)]) ∈ st.net.nodes := by
    rw [h.nodes_eq]
    exact List.mem_map.mpr ⟨(g, i), List.mem_reverse.mpr hmem, rfl⟩
  unfold CX2Network.node_name
  rw [find_by_id st.net.nodes (nodes_ids_nodup h) hnode]
  simp [dictGet]

lemma node_name_mem_node_map {sm : ScoreMap} {st : BuildState} (h : GoodState sm st)
    {i : Nat} {c : Cell} (hi : st.net.node_name i = some c) :
    ∃ g, (g, i) ∈ st.node_map ∧ c = Cell.str g := by
  unfold CX2Network.node_name at hi
  cases hf : st.net.nodes.find? (fun n => n.1 == i) with
  | none => rw [hf] at hi; cases hi
  | some ni =>
    rw [hf] at hi
    have hmem := List.mem_of_find?_eq_some hf
    have hpred := List.find?_some hf
    have hni : ni.1 = i := by simpa using hpred
    rw [h.nodes_eq] at hmem
    obtain ⟨gi, hgi, hF⟩ := List.mem_map.mp hmem
    refine ⟨gi.1, ?_, ?_⟩
    · have : gi.2 = i := by rw [← hni, ← hF]
      have hgi' : gi ∈ st.node_map := List.mem_reverse.mp hgi
      rw [← this]
      simpa using hgi'
    · have hattr : ni.2 = [("name", Cell.str gi.1)] := by rw [← hF]
      simp only [Option.some_bind] at hi
      rw [hattr] at hi
      simp [dictGet] at hi
      exact hi.symm

lemma node_name_inj {sm : ScoreMap} {st : BuildState} (h : GoodState sm st) {i j : Nat}
    {c : Cell} (hi : st.net.node_name i = some c) (hj : st.net.node_name j = some c) :
    i = j := by
  obtain ⟨gi, hgi, rfl⟩ := node_name_mem_node_map h hi
  obtain ⟨gj, hgj, hc⟩ := node_name_mem_node_map h hj
  have hg : gj = gi := by
    have := Cell.str.inj hc
    exact this.symm
  rw [hg] at hgj
  exact nodup_keys_value_eq h.keys_nodup hgi hgj

/-- C2 (confirmed): the built subnetwork has exactly one node for every
gene that occurs in the gene list and is a first-level key of the score
table, and no node at all for a gene of the list that is absent from the
score table (as a first-level key and as a second-level key alike). -/
theorem claim_c2_node_spec (gene_list : List String) (sm : ScoreMap) (g : String) :
    (g ∈ gene_list → (∃ inner, sm g = some inner) →
        node_count (create_network_from_gene_list gene_list sm) g = 1)
    ∧ (sm g = none → (∀ p1 inner, sm p1 = some inner → inner g = none) →
        node_count (create_network_from_gene_list gene_list sm) g = 0) := by
  have hgood := build_good gene_list sm
  constructor
  · rintro hmem ⟨inner, hsm⟩
    obtain ⟨i, hi⟩ := outer_fold_establish1 sm gene_list gene_list
      ⟨[], CX2Network.emptyNet⟩ hmem hsm
    exact node_count_of_mapped hgood hi
  · intro hnone hforall
    refine node_count_of_absent hgood ?_
    intro hmem
    obtain ⟨gi, hgi, hfst⟩ := List.mem_map.mp hmem
    rcases hgood.origin gi hgi with ⟨inner, hsm⟩ | ⟨p1, inner, row, hsm, hrow⟩
    · rw [hfst, hnone] at hsm
      exact Option.noConfusion hsm
    · rw [hfst, hforall p1 inner hsm] at hrow
      exact Option.noConfusion hrow

/-- Witness for C2 on the list `["A","B","X"]` and the table `{A ↦ {B,A}}`:
gene `A` gets exactly one node, gene `X` gets none. -/
theorem claim_c2_node_spec_witness :
    node_count (create_network_from_gene_list ["A", "B", "X"] wScoreMap) "A" = 1
    ∧ node_count (create_network_from_gene_list ["A", "B", "X"] wScoreMap) "X" = 0 :=
  ⟨(claim_c2_node_spec ["A", "B", "X"] wScoreMap "A").1 (by decide) ⟨_, rfl⟩,
   (claim_c2_node_spec ["A", "B", "X"] wScoreMap "X").2 rfl (by
      intro p1 inner h
      unfold wScoreMap at h
      by_cases hp : p1 = "A"
      · rw [if_pos hp] at h
        obtain rfl := Option.some.inj h
        rfl
      · rw [if_neg hp] at h
        exact Option.noConfusion h)⟩

lemma mem_edges_spec_inner {inner : InnerMap} {f : List (String × Nat)} {id1 : Nat}
    {l : List String} {e : Nat × Nat × ConvRow} (he : e ∈ edges_spec_inner inner f id1 l) :
    ∃ p2 ∈ l, ∃ row, inner p2 = some row
      ∧ e = (id1, idOf f p2, get_score_map_edge_attributes row) := by
  induction l with
  | nil => cases he
  | cons p2 rest ih =>
    have he' : e ∈ (match inner p2 with
        | none => ([] : List (Nat × Nat × ConvRow))
        | some row => [(id1, idOf f p2, get_score_map_edge_attributes row)])
        ++ edges_spec_inner inner f id1 rest := he
    cases hrow : inner p2 with
    | none =>
      rw [hrow] at he'
      obtain ⟨p2', hp2', row, hr, heq⟩ := ih (by simpa using he')
      exact ⟨p2', List.mem_cons_of_mem _ hp2', row, hr, heq⟩
    | some row =>
      rw [hrow] at he'
      rcases List.mem_append.mp he' with h1 | h2
      · obtain rfl := List.mem_singleton.mp h1
        exact ⟨p2, List.mem_cons_self _ _, row, hrow, rfl⟩
      · obtain ⟨p2', hp2', row', hr, heq⟩ := ih h2
        exact ⟨p2', List.mem_cons_of_mem _ hp2', row', hr, heq⟩

lemma mem_edges_spec {sm : ScoreMap} {gl : List String} {f : List (String × Nat)}
    {l : List String} {e : Nat × Nat × ConvRow} (he : e ∈ edges_spec sm gl f l) :
    ∃ p1 ∈ l, ∃ inner, sm p1 = some inner
      ∧ e ∈ edges_spec_inner inner f (idOf f p1) gl := by
  induction l with
  | nil => cases he
  | cons p1 rest ih =>
    have he' : e ∈ (match sm p1 with
        | none => ([] : List (Nat × Nat × ConvRow))
        | some inner => edges_spec_inner inner f (idOf f p1) gl)
        ++ edges_spec sm gl f rest := he
    cases hsm : sm p1 with
    | none =>
      rw [hsm] at he'
      obtain ⟨p1', hp1', inner, hs, hmem⟩ := ih (by simpa using he')
      exact ⟨p1', List.mem_cons_of_mem _ hp1', inner, hs, hmem⟩
    | some inner =>
      rw [hsm] at he'
      rcases List.mem_append.mp he' with h1 | h2
      · exact ⟨p1, List.mem_cons_self _ _, inner, hsm, h1⟩
      · obtain ⟨p1', hp1', inner', hs, hmem⟩ := ih h2
        exact ⟨p1', List.mem_cons_of_mem _ hp1', inner', hs, hmem⟩

lemma edge_attributes_eq_filter (row : ConvRow) :
    get_score_map_edge_attributes row
      = row.filter (fun kv => decide (kv.1 ≠ PROTEIN_ONE ∧ kv.1 ≠ PROTEIN_TWO)) := by
  induction row with
  | nil => rfl
  | cons kv rest ih =>
    rw [List.filter_cons]
    by_cases h : kv.1 = PROTEIN_ONE ∨ kv.1 = PROTEIN_TWO
    · have hp : (decide (kv.1 ≠ PROTEIN_ONE ∧ kv.1 ≠ PROTEIN_TWO)) = false := by
        rcases h with h | h <;> simp [h]
      rw [hp, if_neg Bool.false_ne_true,
          show get_score_map_edge_attributes (kv :: rest)
              = get_score_map_edge_attributes rest
            from by rw [get_score_map_edge_attributes, if_pos h]]
      exact ih
    · have hp : (decide (kv.1 ≠ PROTEIN_ONE ∧ kv.1 ≠ PROTEIN_TWO)) = true := by
        push_neg at h
        simp [h.1, h.2]
      rw [hp, if_pos rfl,
          show get_score_map_edge_attributes (kv :: rest)
              = kv :: get_score_map_edge_attributes rest
            from by rw [get_score_map_edge_attributes, if_neg h],
          ih]

/-- C8 (confirmed): every edge of a built subnetwork carries as its
attribute dict exactly the score-table row it came from with the two
protein-identifier keys removed and nothing else added, removed or
changed (it equals the row filtered on "key is neither `Protein 1` nor
`Protein 2`", keys, values and order preserved). -/
theorem claim_c8_edge_attributes (gene_list : List String) (sm : ScoreMap)
    (e : Nat × Nat × ConvRow)
    (he : e ∈ (create_network_from_gene_list gene_list sm).edges) :
    ∃ p1 p2 inner row, p1 ∈ gene_list ∧ p2 ∈ gene_list
      ∧ sm p1 = some inner ∧ inner p2 = some row
      ∧ e.2.2 = get_score_map_edge_attributes row
      ∧ e.2.2 = row.filter (fun kv => decide (kv.1 ≠ PROTEIN_ONE ∧ kv.1 ≠ PROTEIN_TWO)) := by
  have he' : e ∈ edges_spec sm gene_list (build_network_state gene_list sm).node_map
      gene_list := by
    rw [← build_edges]
    exact he
  obtain ⟨p1, hp1, inner, hsm, hin⟩ := mem_edges_spec he'
  obtain ⟨p2, hp2, row, hrow, heq⟩ := mem_edges_spec_inner hin
  refine ⟨p1, p2, inner, row, hp1, hp2, hsm, hrow, ?_, ?_⟩
  · rw [heq]
  · rw [heq]
    exact edge_attributes_eq_filter row

/-- Witness for C8 at the single edge of the example subnetwork. -/
theorem claim_c8_edge_attributes_witness :
    ∃ p1 p2 inner row, p1 ∈ exGeneList ∧ p2 ∈ exGeneList
      ∧ exScoreMap p1 = some inner ∧ inner p2 = some row
      ∧ [("Integrated score", Cell.flt "0.804")] = get_score_map_edge_attributes row
      ∧ [("Integrated score", Cell.flt "0.804")]
          = row.filter (fun kv => decide (kv.1 ≠ PROTEIN_ONE ∧ kv.1 ≠ PROTEIN_TWO)) :=
  claim_c8_edge_attributes exGeneList exScoreMap
    (0, 1, [("Integrated score", Cell.flt "0.804")]) (by decide)

lemma countP_edges_spec_inner_ne {net : CX2Network} {A B : String} {inner : InnerMap}
    {f : List (String × Nat)} {id1 : Nat} (l : List String)
    (hsrc : ¬ net.node_name id1 = some (Cell.str A)) :
    (edges_spec_inner inner f id1 l).countP (edge_pred net A B) = 0 := by
  induction l with
  | nil => rfl
  | cons p2 rest ih =>
    have hspec : edges_spec_inner inner f id1 (p2 :: rest)
        = (match inner p2 with
           | none => ([] : List (Nat × Nat × ConvRow))
           | some row => [(id1, idOf f p2, get_score_map_edge_attributes row)])
          ++ edges_spec_inner inner f id1 rest := rfl
    rw [hspec]
    cases hrow : inner p2 with
    | none => simpa using ih
    | some row => simp [List.countP_append, List.countP_cons, edge_pred, hsrc, ih]

lemma countP_edges_spec_inner_eq {net : CX2Network} {A B : String} {inner : InnerMap}
    {f : List (String × Nat)} {id1 : Nat} (l : List String)
    (hsrc : net.node_name id1 = some (Cell.str A))
    (hnames : ∀ p2 ∈ l, ∀ row, inner p2 = some row →
      net.node_name (idOf f p2) = some (Cell.str p2))
    (hB : ∃ rowB, inner B = some rowB) :
    (edges_spec_inner inner f id1 l).countP (edge_pred net A B) = l.count B := by
  induction l with
  | nil => rfl
  | cons p2 rest ih =>
    have hspec : edges_spec_inner inner f id1 (p2 :: rest)
        = (match inner p2 with
           | none => ([] : List (Nat × Nat × ConvRow))
           | some row => [(id1, idOf f p2, get_score_map_edge_attributes row)])
          ++ edges_spec_inner inner f id1 rest := rfl
    rw [hspec]
    have hnames' : ∀ p ∈ rest, ∀ row, inner p = some row →
        net.node_name (idOf f p) = some (Cell.str p) :=
      fun p hp => hnames p (List.mem_cons_of_mem _ hp)
    cases hrow : inner p2 with
    | none =>
      obtain ⟨rowB, hrowB⟩ := hB
      have hne : p2 ≠ B := by
        intro he
        rw [he, hrowB] at hrow
        exact Option.noConfusion hrow
      simp [List.count_cons, hne, ih hnames']
    | some row =>
      have hname2 := hnames p2 (List.mem_cons_self _ _) row hrow
      by_cases hpB : p2 = B
      · subst hpB
        simp [List.countP_append, List.countP_cons, edge_pred, hsrc, hname2,
              List.count_cons, ih hnames']
      · have hfalse : ¬ net.node_name (idOf f p2) = some (Cell.str B) := by
          rw [hname2]
          intro hcon
          exact hpB (Cell.str.inj (Option.some.inj hcon))
        simp [List.countP_append, List.countP_cons, edge_pred, hfalse,
              List.count_cons, hpB, ih hnames']

lemma countP_edges_spec {net : CX2Network} {A B : String} {sm : ScoreMap}
    {gl : List String} {f : List (String × Nat)} (l : List String)
    (hA : ∃ innerA, sm A = some innerA)
    (hsrc : ∀ p1 ∈ l, ∀ inner, sm p1 = some inner →
      net.node_name (idOf f p1) = some (Cell.str p1))
    (hnames : ∀ p1 ∈ l, ∀ inner, sm p1 = some inner →
      ∀ p2 ∈ gl, ∀ row, inner p2 = some row →
        net.node_name (idOf f p2) = some (Cell.str p2))
    (hB : ∀ inner, sm A = some inner → ∃ rowB, inner B = some rowB) :
    (edges_spec sm gl f l).countP (edge_pred net A B) = l.count A * gl.count B := by
  induction l with
  | nil => simp [edges_spec]
  | cons p1 rest ih =>
    have hspec : edges_spec sm gl f (p1 :: rest)
        = (match sm p1 with
           | none => ([] : List (Nat × Nat × ConvRow))
           | some inner => edges_spec_inner inner f (idOf f p1) gl)
          ++ edges_spec sm gl f rest := rfl
    rw [hspec]
    have hsrc' : ∀ p ∈ rest, ∀ inner, sm p = some inner →
        net.node_name (idOf f p) = some (Cell.str p) :=
      fun p hp => hsrc p (List.mem_cons_of_mem _ hp)
    have hnames' : ∀ p ∈ rest, ∀ inner, sm p = some inner →
        ∀ p2 ∈ gl, ∀ row, inner p2 = some row →
          net.node_name (idOf f p2) = some (Cell.str p2) :=
      fun p hp => hnames p (List.mem_cons_of_mem _ hp)
    cases hsm1 : sm p1 with
    | none =>
      obtain ⟨innerA, hA'⟩ := hA
      have hne : p1 ≠ A := by
        intro he
        rw [he, hA'] at hsm1
        exact Option.noConfusion hsm1
      simp [List.count_cons, hne, ih hsrc' hnames']
    | some inner =>
      have hn1 := hsrc p1 (List.mem_cons_self _ _) inner hsm1
      by_cases hpA : p1 = A
      · subst hpA
        have hcnt := countP_edges_spec_inner_eq gl hn1
          (hnames p1 (List.mem_cons_self _ _) inner hsm1) (hB inner hsm1)
        rw [List.countP_append, hcnt, ih hsrc' hnames']
        have : (p1 :: rest).count p1 = rest.count p1 + 1 := by
          simp [List.count_cons]
        rw [this, Nat.succ_mul]
        omega
      · have hfalse : ¬ net.node_name (idOf f p1) = some (Cell.str A) := by
          rw [hn1]
          intro hcon
          exact hpA (Cell.str.inj (Option.some.inj hcon))
        have hcnt := @countP_edges_spec_inner_ne net A B inner f (idOf f p1) gl hfalse
        rw [List.countP_append, hcnt, ih hsrc' hnames']
        simp [List.count_cons, hpA]

/-- C10 (confirmed): nodes of a built subnetwork are deduplicated by gene
symbol (never more than one node per gene, however often it occurs in the
gene list), while edges are not: a score-table entry `(A,B)` yields
`count(A) * count(B)` parallel edges from `A` to `B` when `A` occurs
`count(A)` times and `B` occurs `count(B)` times in the gene list, and an
entry `(A,A)` with `A` in the list yields a self-loop edge. -/
theorem claim_c10_multiplicity (gene_list : List String) (sm : ScoreMap) :
    (∀ g, node_count (create_network_from_gene_list gene_list sm) g ≤ 1)
    ∧ (∀ A B innerA rowB, sm A = some innerA → innerA B = some rowB →
        edge_count_between (create_network_from_gene_list gene_list sm) A B
          = gene_list.count A * gene_list.count B)
    ∧ (∀ A innerA rowA, sm A = some innerA → innerA A = some rowA → A ∈ gene_list →
        ∃ i attrs, (i, i, attrs) ∈ (create_network_from_gene_list gene_list sm).edges) := by
  have hgood := build_good gene_list sm
  have hsrc : ∀ p1 ∈ gene_list, ∀ inner, sm p1 = some inner →
      (build_network_state gene_list sm).net.node_name
        (idOf (build_network_state gene_list sm).node_map p1) = some (Cell.str p1) := by
    intro p1 hp1 inner hin
    obtain ⟨i, hi⟩ := outer_fold_establish1 sm gene_list gene_list
      ⟨[], CX2Network.emptyNet⟩ hp1 hin
    have hidf : idOf (build_network_state gene_list sm).node_map p1 = i := by
      unfold idOf
      rw [show dictGet (build_network_state gene_list sm).node_map p1 = some i from hi]
      rfl
    rw [hidf]
    exact node_name_of_node_map hgood (dictGet_some_mem hi)
  have hnames : ∀ p1 ∈ gene_list, ∀ inner, sm p1 = some inner →
      ∀ p2 ∈ gene_list, ∀ row, inner p2 = some row →
        (build_network_state gene_list sm).net.node_name
          (idOf (build_network_state gene_list sm).node_map p2) = some (Cell.str p2) := by
    intro p1 hp1 inner hin p2 hp2 row hrow
    obtain ⟨i, hi⟩ := outer_fold_establish2 sm gene_list gene_list
      ⟨[], CX2Network.emptyNet⟩ hp1 hin hp2 hrow
    have hidf : idOf (build_network_state gene_list sm).node_map p2 = i := by
      unfold idOf
      rw [show dictGet (build_network_state gene_list sm).node_map p2 = some i from hi]
      rfl
    rw [hidf]
    exact node_name_of_node_map hgood (dictGet_some_mem hi)
  have hcount : ∀ A B innerA, sm A = some innerA → (∃ rowB, innerA B = some rowB) →
      edge_count_between (create_network_from_gene_list gene_list sm) A B
        = gene_list.count A * gene_list.count B := by
    intro A B innerA hA hB
    unfold edge_count_between create_network_from_gene_list
    rw [build_edges]
    refine countP_edges_spec gene_list ⟨innerA, hA⟩ hsrc hnames ?_
    intro inner hin
    obtain rfl := Option.some.inj (hA.symm.trans hin)
    exact hB
  refine ⟨fun g => node_count_le_one hgood g, ?_, ?_⟩
  · intro A B innerA rowB hA hB
    exact hcount A B innerA hA ⟨rowB, hB⟩
  · intro A innerA rowA hA hrowA hmemA
    have hc := hcount A A innerA hA ⟨rowA, hrowA⟩
    have hpos : 0 < edge_count_between (create_network_from_gene_list gene_list sm) A A := by
      rw [hc]
      exact Nat.mul_pos (List.count_pos_iff.mpr hmemA) (List.count_pos_iff.mpr hmemA)
    unfold edge_count_between at hpos
    obtain ⟨e, hemem, hpe⟩ := List.countP_pos_iff.mp hpos
    obtain ⟨s, t, attrs⟩ := e
    rw [edge_pred, Bool.and_eq_true] at hpe
    obtain ⟨hp1, hp2⟩ := hpe
    have h1 := of_decide_eq_true hp1
    have h2 := of_decide_eq_true hp2
    have hst : s = t := node_name_inj hgood h1 h2
    subst hst
    exact ⟨s, attrs, hemem⟩

/-- Witness for C10 on the gene list `["A","B","A"]` and the score table
`{A ↦ {B, A}}`: the pair `(A,B)` yields `2 * 1 = 2` parallel edges and
the entry `(A,A)` yields a self-loop. -/
theorem claim_c10_multiplicity_witness :
    edge_count_between (create_network_from_gene_list ["A", "B", "A"] wScoreMap) "A" "B" = 2
    ∧ ∃ i attrs,
        (i, i, attrs) ∈ (create_network_from_gene_list ["A", "B", "A"] wScoreMap).edges := by
  constructor
  · have h := (claim_c10_multiplicity ["A", "B", "A"] wScoreMap).2.1 "A" "B"
      (fun b => if b = "B" ∨ b = "A" then some [("s", Cell.str "1")] else none)
      [("s", Cell.str "1")] rfl rfl
    exact h.trans (by decide)
  · exact (claim_c10_multiplicity ["A", "B", "A"] wScoreMap).2.2 "A"
      (fun b => if b = "B" ∨ b = "A" then some [("s", Cell.str "1")] else none)
      [("s", Cell.str "1")] rfl rfl (by decide)

end NdexNestLoader
